import Mathlib

/-!
Shallow embedding of the exercise-repetition core of the FormFit workout
tracker (`src/workout-body-correction/lib/workout-storage.ts`).

The source file concatenates three documents; the algorithmic core lives in
the second and third: a push-up state machine (`updatePushupState`), a squat
state machine (`updateSquatState`), a hand-height axis tracker (`trackHandY`),
the repetition validator (`repIsValid`) and the scorer (`scoreRep`, optionally
template-based via `resampleRep`), on top of a landmark geometry layer
(`angleDegrees`, `extractFrameFeatures`).

Numeric modelling: the state-machine / validator / scorer layer works on
already-extracted scalar features; it is embedded over `ℚ` so that every
definition is executable and witnesses evaluate by `decide`.  The geometry
layer genuinely computes square roots and arc-cosines, so it is embedded
over `ℝ` (`Real.sqrt`, `Real.arccos`).  JavaScript numbers are IEEE floats;
neither `ℚ` nor `ℝ` has a `NaN`, so the embedding models the arithmetic
exactly and division-by-zero as Lean's `x / 0 = 0` (noted where it matters).
The React `useRef` cells become fields of explicit machine records; the
`window.dispatchEvent` calls become an `events` list on the machine, and
`Date.now()` becomes a per-frame timestamp argument.
-/

namespace Workout

/-- One MediaPipe pose landmark: normalized position plus a visibility
confidence (source `type Landmark`). -/
structure Landmark (α : Type) where
  x : α
  y : α
  z : α
  visibility : α
deriving DecidableEq, Repr

/-- Per-frame derived scalar features (source `type FrameFeatures`):
nullable joint angles and vertical positions. -/
structure FrameFeatures (α : Type) where
  t : α
  elbowAngle : Option α
  hipAngle : Option α
  headY : Option α
  shoulderY : Option α
  hipY : Option α
deriving DecidableEq, Repr

/-- A completed, scored repetition (source `type CompletedRep`). -/
structure CompletedRep where
  features : List (FrameFeatures ℚ)
  correctness : ℚ
deriving DecidableEq, Repr

/-- Payload of a repetition-completed browser event.  The push-up event
(`pushupCompleted`) dispatches `{ score, repCount, timestamp }`; the squat
event (`squatCompleted`) dispatches only `{ repCount, timestamp }`, so the
score field is optional in the common model. -/
structure RepetitionEventDetail where
  score? : Option ℚ
  repCount : ℕ
  timestamp : ℕ
deriving DecidableEq, Repr

/-- Push-up phase enumeration (source `type PushupState`). -/
inductive PushupState
  | WAITING_FOR_START
  | AT_TOP
  | GOING_DOWN
  | AT_BOTTOM
  | GOING_UP
deriving DecidableEq, Repr

/-- Squat phase enumeration (source `type SquatState`). -/
inductive SquatState
  | WAITING_FOR_START
  | STANDING
  | GOING_DOWN
  | AT_BOTTOM
  | GOING_UP
deriving DecidableEq, Repr

/-- Per-phase mean/std tracks of the statistical template. -/
structure AngleTrack where
  mean : List ℚ
  std : List ℚ
deriving DecidableEq, Repr

/-- Optional statistical reference profile (source `interface PushupTemplate`). -/
structure PushupTemplate where
  phaseCount : ℕ
  elbow : AngleTrack
  hip : AngleTrack
  headY : AngleTrack
deriving DecidableEq, Repr

/-- `Math.min(...xs)` on a nonempty argument list; the guarded call sites
never evaluate it on an empty list, for which we return 0. -/
def listMin : List ℚ → ℚ
  | [] => 0
  | x :: xs => xs.foldl min x

/-- `Math.max(...xs)` on a nonempty argument list; 0 on the empty list. -/
def listMax : List ℚ → ℚ
  | [] => 0
  | x :: xs => xs.foldl max x

/-- Repetition validator (source `repIsValid`, identical in both component
versions): at least 6 non-null elbow angles, elbow range of motion at least
`MIN_ANGLE_DELTA = 40`, and the minimum elbow angle within
`BOTTOM_ANGLE_MARGIN = 10` of `ELBOW_BOTTOM_ANGLE = 90`. -/
def repIsValid (features : List (FrameFeatures ℚ)) : Bool :=
  let elbowAngles := features.filterMap (·.elbowAngle)
  if elbowAngles.isEmpty then false
  else if elbowAngles.length < 6 then false
  else
    let minElbow := listMin elbowAngles
    let maxElbow := listMax elbowAngles
    let elbowRange := maxElbow - minElbow
    if elbowRange < 40 then false
    else if ¬ (minElbow ≤ 90 + 10) then false
    else true

/-- Resample a repetition onto `phaseCount` normalized phases by
nearest-timestamp lookup (source `resampleRep`).  The JS `t1 - t0 || 1`
becomes an explicit zero test.  When `phaseCount = 1` the JS computes
`0 / 0 = NaN`, making every strict comparison false so `features[0]` is
kept; `ℚ` division by zero gives `0`, which makes `targetT = t0` and again
keeps `features[0]` (distances cannot be strictly below `0`). -/
def resampleRep (features : List (FrameFeatures ℚ)) (phaseCount : ℕ) :
    List (ℚ × ℚ) :=
  match features with
  | [] => []
  | f0 :: _ =>
    let t0 := f0.t
    let t1 := (features.getLastD f0).t
    let duration := if t1 - t0 = 0 then 1 else t1 - t0
    (List.range phaseCount).map fun i =>
      let targetPhase := (i : ℚ) / ((phaseCount : ℚ) - 1)
      let targetT := t0 + targetPhase * duration
      let best := features.foldl
        (fun best f => if |f.t - targetT| < |best.t - targetT| then f else best) f0
      (best.elbowAngle.getD 0, best.hipAngle.getD 0)

/-- Scorer (source `scoreRep`, second component version; the first version
is exactly the `none`-template branch).  Template branch: mean absolute
z-score of elbow/hip per phase mapped through `100 - 10 * avgZ`, clamped.
The JS `std[i] || 1` (missing or zero std becomes 1) is modelled by a
`getD 0` lookup followed by a zero test.  Rule-based branch: clamped
range-of-motion (70 points) plus clamped hip straightness (30 points). -/
def scoreRep (template : Option PushupTemplate)
    (features : List (FrameFeatures ℚ)) : ℚ :=
  match template with
  | some tpl =>
    let phaseCount := tpl.phaseCount
    let repPhases := resampleRep features phaseCount
    if repPhases.length ≠ phaseCount then 0
    else
      let zTotals := (List.range phaseCount).foldl
        (fun acc i =>
          let rep := repPhases.getD i (0, 0)
          let mE := tpl.elbow.mean.getD i 0
          let sE0 := tpl.elbow.std.getD i 0
          let sE := if sE0 = 0 then 1 else sE0
          let zE := |rep.1 - mE| / sE
          let mH := tpl.hip.mean.getD i 0
          let sH0 := tpl.hip.std.getD i 0
          let sH := if sH0 = 0 then 1 else sH0
          let zH := |rep.2 - mH| / sH
          (acc.1 + zE + zH, acc.2 + 2))
        ((0 : ℚ), (0 : ℕ))
      let avgZ := zTotals.1 / (zTotals.2 : ℚ)
      let raw := 100 - 10 * avgZ
      max 0 (min 100 raw)
  | none =>
    let elbowAngles := features.filterMap (·.elbowAngle)
    let hipAngles := features.filterMap (·.hipAngle)
    if elbowAngles.isEmpty ∨ hipAngles.isEmpty then 0
    else
      let minElbow := listMin elbowAngles
      let maxElbow := listMax elbowAngles
      let elbowRange := maxElbow - minElbow
      let maxHip := listMax hipAngles
      let rangeScore := max 0 (min 1 (elbowRange / 80))
      let rangePoints := rangeScore * 70
      let hipScore := max 0 (min 1 ((maxHip - 140) / 40))
      let hipPoints := hipScore * 30
      max 0 (min 100 (rangePoints + hipPoints))

lemma clamp_100_bounds (x : ℚ) :
    0 ≤ max 0 (min 100 x) ∧ max 0 (min 100 x) ≤ 100 :=
  ⟨le_max_left _ _, max_le (by norm_num) (min_le_left _ _)⟩

/-- The scorer output is clamped into `[0, 100]` on every branch,
template-based or rule-based alike. -/
lemma scoreRep_bounds (template : Option PushupTemplate)
    (features : List (FrameFeatures ℚ)) :
    0 ≤ scoreRep template features ∧ scoreRep template features ≤ 100 := by
  cases template with
  | none =>
    simp only [scoreRep]
    split_ifs with h
    · norm_num
    · exact clamp_100_bounds _
  | some tpl =>
    simp only [scoreRep]
    split_ifs with h
    · norm_num
    · exact clamp_100_bounds _

/-- Convenience constructor for a fully-populated feature frame. -/
def frameq (t e h sY hY : ℚ) : FrameFeatures ℚ :=
  ⟨t, some e, some h, none, some sY, some hY⟩

/-- The validator accepts exactly the buffers with at least 6 non-null elbow
angles, elbow range at least 40 and minimum elbow at most 100. -/
lemma repIsValid_true_iff (features : List (FrameFeatures ℚ)) :
    repIsValid features = true ↔
      (features.filterMap (·.elbowAngle)).isEmpty = false ∧
      6 ≤ (features.filterMap (·.elbowAngle)).length ∧
      40 ≤ listMax (features.filterMap (·.elbowAngle)) -
             listMin (features.filterMap (·.elbowAngle)) ∧
      listMin (features.filterMap (·.elbowAngle)) ≤ 100 := by
  unfold repIsValid
  dsimp only
  split_ifs with h1 h2 h3 h4
  · simp [h1]
  · constructor
    · intro hfalse; exact absurd hfalse (by simp)
    · intro hr; omega
  · constructor
    · intro hfalse; exact absurd hfalse (by simp)
    · intro hr; linarith [hr.2.2.1]
  · refine iff_of_true rfl ⟨by simpa using h1, by omega, by linarith, by linarith⟩
  · exact iff_of_false (by simp) (fun hr => h4 (by linarith [hr.2.2.2]))

/-- Claim C3: for every buffered push-up repetition, if the range of its
non-null elbow angles (max minus min) is strictly below 40°, the validator
rejects it, regardless of how many frames the buffer contains. -/
theorem repIsValid_rejects_small_range (features : List (FrameFeatures ℚ))
    (h : listMax (features.filterMap (·.elbowAngle)) -
         listMin (features.filterMap (·.elbowAngle)) < 40) :
    repIsValid features = false := by
  cases hrv : repIsValid features with
  | false => rfl
  | true => exact absurd ((repIsValid_true_iff features).mp hrv).2.2.1 (by linarith)

/-- A six-frame buffer whose elbow angles only span 5° (170° down to 165°). -/
def smallRangeRep : List (FrameFeatures ℚ) :=
  [frameq 0 170 160 (1/2) (1/2), frameq 1 169 160 (1/2) (1/2),
   frameq 2 168 160 (1/2) (1/2), frameq 3 167 160 (1/2) (1/2),
   frameq 4 166 160 (1/2) (1/2), frameq 5 165 160 (1/2) (1/2)]

/-- Witness for claim C3 at a concrete six-frame buffer of range 5°. -/
theorem repIsValid_rejects_small_range_witness :
    (listMax (smallRangeRep.filterMap (·.elbowAngle)) -
       listMin (smallRangeRep.filterMap (·.elbowAngle)) < 40) ∧
    repIsValid smallRangeRep = false := by
  have hrange : listMax (smallRangeRep.filterMap (·.elbowAngle)) -
      listMin (smallRangeRep.filterMap (·.elbowAngle)) < 40 := by
    norm_num [smallRangeRep, frameq, listMin, listMax, min_def, max_def,
      List.filterMap_cons]
  exact ⟨hrange, repIsValid_rejects_small_range smallRangeRep hrange⟩

/-- Claim C4: every repetition buffer accepted by the validator gets a score
in `[0, 100]`, both under the rule-based strategy and under any supplied
statistical template. -/
theorem scoreRep_bounded_of_valid (template : Option PushupTemplate)
    (features : List (FrameFeatures ℚ)) (_hvalid : repIsValid features = true) :
    0 ≤ scoreRep template features ∧ scoreRep template features ≤ 100 :=
  scoreRep_bounds template features

/-- A full, valid repetition: six frames, elbow 170° → 95° → 170°. -/
def goodRep : List (FrameFeatures ℚ) :=
  [frameq 0 170 160 (1/2) (1/2), frameq 1 150 160 (1/2) (1/2),
   frameq 2 120 155 (1/2) (1/2), frameq 3 95 150 (1/2) (1/2),
   frameq 4 130 155 (1/2) (1/2), frameq 5 170 160 (1/2) (1/2)]

/-- A small three-phase template profile. -/
def tpl0 : PushupTemplate :=
  ⟨3, ⟨[170, 100, 170], [10, 10, 10]⟩, ⟨[160, 160, 160], [10, 10, 10]⟩, ⟨[], []⟩⟩

/-- Witness for claim C4: a concrete accepted repetition is scored within
`[0, 100]` by the rule-based scorer and by a concrete template scorer. -/
theorem scoreRep_bounded_of_valid_witness :
    repIsValid goodRep = true ∧
    (0 ≤ scoreRep none goodRep ∧ scoreRep none goodRep ≤ 100) ∧
    (0 ≤ scoreRep (some tpl0) goodRep ∧ scoreRep (some tpl0) goodRep ≤ 100) := by
  have hv : repIsValid goodRep = true := by
    norm_num [goodRep, frameq, repIsValid, listMin, listMax, min_def, max_def,
      List.filterMap_cons]
  exact ⟨hv, scoreRep_bounded_of_valid none goodRep hv,
    scoreRep_bounded_of_valid (some tpl0) goodRep hv⟩

/-! ## Push-up state machine

The mutable refs of the component (`pushupStateRef`, `currentRepRef`,
`completedRepsRef`, `topStreakRef`, `baselineHeadYRef`) become the fields of
`PushupMachine`; the `pushupCompleted` dispatches accumulate in `events`,
with `Date.now()` modelled as a per-frame timestamp argument. -/

structure PushupMachine where
  state : PushupState
  currentRep : List (FrameFeatures ℚ)
  completedReps : List CompletedRep
  topStreak : ℕ
  baselineHeadY : Option ℚ
  events : List RepetitionEventDetail
deriving DecidableEq, Repr

/-- The component's initial detection state. -/
def initPushup : PushupMachine :=
  ⟨.WAITING_FOR_START, [], [], 0, none, []⟩

/-- One frame of the push-up state machine (source `updatePushupState`,
second component version; the first version is the same minus
`baselineHeadY` and the UI setters).  Guard order is the source's: null
angles bail out first (resetting the start streak only while waiting), then
missing vertical positions bail out, then the horizontal-posture gate
(`HORIZONTAL_BODY_MAX_DELTA_Y = 0.3`) force-resets from any non-waiting
state, and only then does the phase transition table run with
`ELBOW_TOP_ANGLE = 160`, `HIP_STRAIGHT_ANGLE = 150`, `ELBOW_BOTTOM_ANGLE =
90`, 5° hysteresis and `START_TOP_STREAK = 3`. -/
def updatePushupState (template : Option PushupTemplate) (m : PushupMachine)
    (features : FrameFeatures ℚ) (now : ℕ) : PushupMachine :=
  match features.elbowAngle, features.hipAngle with
  | some elbowAngle, some hipAngle =>
    match features.shoulderY, features.hipY with
    | some shoulderY, some hipY =>
      let bodyDeltaY := |shoulderY - hipY|
      if bodyDeltaY ≤ 3/10 then
        let atTop := 160 ≤ elbowAngle ∧ 150 ≤ hipAngle
        let atBottom := elbowAngle ≤ 90
        match m.state with
        | .WAITING_FOR_START =>
          if atTop then
            let streak := m.topStreak + 1
            if 3 ≤ streak then
              { m with state := .AT_TOP, topStreak := streak,
                       currentRep := [features],
                       baselineHeadY := features.headY }
            else { m with topStreak := streak }
          else { m with topStreak := 0 }
        | .AT_TOP =>
          let buf := m.currentRep ++ [features]
          if ¬ atTop ∧ elbowAngle < 160 - 5 then
            { m with currentRep := buf, state := .GOING_DOWN }
          else { m with currentRep := buf }
        | .GOING_DOWN =>
          let buf := m.currentRep ++ [features]
          if atBottom then { m with currentRep := buf, state := .AT_BOTTOM }
          else if atTop then { m with state := .AT_TOP, currentRep := [features] }
          else { m with currentRep := buf }
        | .AT_BOTTOM =>
          let buf := m.currentRep ++ [features]
          if ¬ atBottom ∧ 90 + 5 < elbowAngle then
            { m with currentRep := buf, state := .GOING_UP }
          else { m with currentRep := buf }
        | .GOING_UP =>
          let buf := m.currentRep ++ [features]
          if atTop then
            let newBase := if m.baselineHeadY = none ∧ features.headY ≠ none
              then features.headY else m.baselineHeadY
            if repIsValid buf then
              let score := scoreRep template buf
              let completed := m.completedReps ++ [⟨buf, score⟩]
              { m with state := .AT_TOP,
                       currentRep := [features],
                       completedReps := completed,
                       events := m.events ++ [⟨some score, completed.length, now⟩],
                       baselineHeadY := newBase }
            else
              { m with state := .AT_TOP, currentRep := [features],
                       baselineHeadY := newBase }
          else { m with currentRep := buf }
      else
        if m.state ≠ .WAITING_FOR_START then
          { m with state := .WAITING_FOR_START, currentRep := [], topStreak := 0 }
        else m
    | _, _ => m
  | _, _ => if m.state = .WAITING_FOR_START then { m with topStreak := 0 } else m

/-- The per-frame detection loop restricted to push-up mode: fold the state
machine over a frame/timestamp stream. -/
def runPushup (template : Option PushupTemplate) (m : PushupMachine) :
    List (FrameFeatures ℚ × ℕ) → PushupMachine
  | [] => m
  | (f, ts) :: rest => runPushup template (updatePushupState template m f ts) rest

/-! ### Claim C1 -/

/-- The "at top" predicate of the claim: elbow angle ≥ 160°, hip angle
≥ 150°, and horizontal posture, all on non-null fields. -/
def claimAtTop (f : FrameFeatures ℚ) : Bool :=
  match f.elbowAngle, f.hipAngle, f.shoulderY, f.hipY with
  | some e, some h, some sY, some hY =>
    decide (160 ≤ e ∧ 150 ≤ h ∧ |sY - hY| ≤ 3/10)
  | _, _, _, _ => false

/-- Some window of three consecutive frames consists of claim-qualifying
"at top" frames. -/
def hasThreeConsecTop : List (FrameFeatures ℚ) → Bool
  | f1 :: f2 :: f3 :: rest =>
    (claimAtTop f1 && claimAtTop f2 && claimAtTop f3) ||
      hasThreeConsecTop (f2 :: f3 :: rest)
  | _ => false

/-- How a frame acts on the start-debounce streak while the machine waits:
it increments on a qualifying at-top frame, resets on a null-angle frame or
a horizontal full frame that fails the at-top test, and leaves the streak
untouched when the vertical positions are missing or the posture is not
horizontal. -/
inductive StreakAction
  | inc
  | reset
  | neutral
deriving DecidableEq, Repr

/-- Classification of a frame as seen by the `WAITING_FOR_START` branch of
`updatePushupState`. -/
def streakAction (f : FrameFeatures ℚ) : StreakAction :=
  match f.elbowAngle, f.hipAngle with
  | some e, some h =>
    match f.shoulderY, f.hipY with
    | some sY, some hY =>
      if |sY - hY| ≤ 3/10 then
        if 160 ≤ e ∧ 150 ≤ h then .inc else .reset
      else .neutral
    | _, _ => .neutral
  | _, _ => .reset

/-- The frame stream never drives the debounce streak from `k` up to 3. -/
def noReach3 (k : ℕ) : List (FrameFeatures ℚ) → Bool
  | [] => true
  | f :: fs =>
    match streakAction f with
    | .neutral => noReach3 k fs
    | .inc => decide (k + 1 < 3) && noReach3 (k + 1) fs
    | .reset => noReach3 0 fs

/-- In the waiting state a step of the machine is exactly the streak action
of the frame. -/
lemma updatePushupState_waiting (template : Option PushupTemplate)
    (m : PushupMachine) (f : FrameFeatures ℚ) (now : ℕ)
    (hw : m.state = .WAITING_FOR_START) :
    updatePushupState template m f now =
      match streakAction f with
      | .neutral => m
      | .reset => { m with topStreak := 0 }
      | .inc =>
        if 3 ≤ m.topStreak + 1 then
          { m with state := .AT_TOP, topStreak := m.topStreak + 1,
                   currentRep := [f], baselineHeadY := f.headY }
        else { m with topStreak := m.topStreak + 1 } := by
  rcases m with ⟨st, cur, comp, streak, base, evs⟩
  dsimp only at hw
  subst hw
  rcases f with ⟨t, eA, hA, hdY, sY, hY⟩
  rcases eA with _ | e <;> rcases hA with _ | h
  · rfl
  · rfl
  · rfl
  rcases sY with _ | sY <;> rcases hY with _ | hY
  · rfl
  · rfl
  · rfl
  by_cases hhor : |sY - hY| ≤ (3 : ℚ)/10
  · by_cases htop : (160 : ℚ) ≤ e ∧ (150 : ℚ) ≤ h
    · simp only [updatePushupState, streakAction, if_pos hhor, if_pos htop]
    · simp only [updatePushupState, streakAction, if_pos hhor, if_neg htop]
  · simp only [updatePushupState, streakAction, if_neg hhor]
    rw [if_neg (by simp)]

/-- While waiting, a stream that never completes a 3-streak leaves the
machine waiting and changes nothing but the streak counter. -/
lemma runPushup_waiting (template : Option PushupTemplate) :
    ∀ (inputs : List (FrameFeatures ℚ × ℕ)) (m : PushupMachine),
      m.state = .WAITING_FOR_START →
      noReach3 m.topStreak (inputs.map Prod.fst) = true →
      (runPushup template m inputs).state = .WAITING_FOR_START ∧
      (runPushup template m inputs).events = m.events ∧
      (runPushup template m inputs).completedReps = m.completedReps ∧
      (runPushup template m inputs).currentRep = m.currentRep := by
  intro inputs
  induction inputs with
  | nil => exact fun m hw _ => ⟨hw, rfl, rfl, rfl⟩
  | cons p rest ih =>
    rcases p with ⟨f, ts⟩
    intro m hw hno
    rw [List.map_cons] at hno
    rw [runPushup, updatePushupState_waiting template m f ts hw]
    unfold noReach3 at hno
    rcases hsa : streakAction f with _ | _ | _ <;> rw [hsa] at hno
    · -- inc
      rw [Bool.and_eq_true, decide_eq_true_eq] at hno
      obtain ⟨hlt, hrest⟩ := hno
      rw [if_neg (by omega)]
      exact ih { m with topStreak := m.topStreak + 1 } hw hrest
    · -- reset
      exact ih { m with topStreak := 0 } hw hno
    · -- neutral
      exact ih m hw hno

/-- Claim C1 (amended): starting from the initial state, if the frame stream
never accumulates a debounce streak of 3, the push-up machine remains in
`WAITING_FOR_START` forever and never emits a repetition-completed event.
The streak is incremented exactly by qualifying at-top frames (non-null
angles and positions, horizontal posture, elbow ≥ 160° and hip ≥ 150°),
reset to zero by null-angle frames and by horizontal full frames failing
the at-top test, and — unlike the original claim — left unchanged by frames
with missing shoulder/hip positions or with non-horizontal posture. -/
theorem pushup_stays_waiting (template : Option PushupTemplate)
    (inputs : List (FrameFeatures ℚ × ℕ))
    (h : noReach3 0 (inputs.map Prod.fst) = true) :
    (runPushup template initPushup inputs).state = .WAITING_FOR_START ∧
    (runPushup template initPushup inputs).events = [] := by
  have hrun := runPushup_waiting template inputs initPushup rfl h
  exact ⟨hrun.1, hrun.2.1⟩

/-- A qualifying at-top frame: elbow 170°, hip 160°, horizontal posture. -/
def fTop : FrameFeatures ℚ := ⟨0, some 170, some 160, none, some (1/2), some (1/2)⟩

/-- A frame with at-top angles but vertical (non-horizontal) posture:
`|shoulderY - hipY| = 1 > 0.3`. -/
def fVert : FrameFeatures ℚ := ⟨0, some 170, some 160, none, some 0, some 1⟩

/-- A horizontal full frame that fails the at-top test (elbow 100°). -/
def fNT : FrameFeatures ℚ := ⟨2, some 100, some 160, none, some (1/2), some (1/2)⟩

/-- Witness for claim C1: a concrete stream with at most two qualifying
frames in a row leaves the machine waiting with no events. -/
theorem pushup_stays_waiting_witness :
    noReach3 0 ([(fTop, 0), (fTop, 1), (fNT, 2), (fTop, 3), (fTop, 4)].map
      Prod.fst) = true ∧
    (runPushup none initPushup
      [(fTop, 0), (fTop, 1), (fNT, 2), (fTop, 3), (fTop, 4)]).state =
      .WAITING_FOR_START ∧
    (runPushup none initPushup
      [(fTop, 0), (fTop, 1), (fNT, 2), (fTop, 3), (fTop, 4)]).events = [] := by
  have hno : noReach3 0 ([(fTop, 0), (fTop, 1), (fNT, 2), (fTop, 3),
      (fTop, 4)].map Prod.fst) = true := by
    norm_num [noReach3, streakAction, fTop, fNT]
  have hrun := pushup_stays_waiting none
    [(fTop, 0), (fTop, 1), (fNT, 2), (fTop, 3), (fTop, 4)] hno
  exact ⟨hno, hrun.1, hrun.2⟩

/-- Counterexample to claim C1 as stated: the stream
`fTop, fTop, fVert, fTop` contains no three consecutive frames satisfying
the claim's at-top predicate (the third frame is non-horizontal), yet the
machine leaves `WAITING_FOR_START`, because the non-horizontal frame in the
waiting state returns without resetting the streak (streak is still 2 after
it), so the fourth frame completes the 3-streak. -/
theorem pushup_stays_waiting_counterexample :
    hasThreeConsecTop [fTop, fTop, fVert, fTop] = false ∧
    claimAtTop fVert = false ∧
    (runPushup none initPushup [(fTop, 0), (fTop, 1), (fVert, 2)]).topStreak = 2 ∧
    (runPushup none initPushup
      [(fTop, 0), (fTop, 1), (fVert, 2), (fTop, 3)]).state = .AT_TOP := by
  refine ⟨?_, ?_, ?_, ?_⟩
  · norm_num [hasThreeConsecTop, claimAtTop, fTop, fVert]
  · norm_num [claimAtTop, fVert]
  · norm_num [runPushup, updatePushupState, initPushup, fTop, fVert]
  · norm_num [runPushup, updatePushupState, initPushup, fTop, fVert]

/-! ### Claim C2 -/

/-- Claim C2 (amended): from any state other than `WAITING_FOR_START`, a
frame with non-null elbow and hip angles whose vertical positions satisfy
`|shoulderY - hipY| > 0.3` forces the machine back to `WAITING_FOR_START`,
empties the in-progress repetition buffer and zeroes the debounce counter,
leaving the completed-repetition log and the emitted events untouched (so
no repetition is counted from the discarded buffer).  Unlike the original
claim, the elbow and hip angles must be non-null: a frame with a null angle
is skipped by the earlier guard and resets nothing. -/
theorem pushup_posture_reset (template : Option PushupTemplate)
    (m : PushupMachine) (f : FrameFeatures ℚ) (now : ℕ) (e h sY hY : ℚ)
    (hstate : m.state ≠ .WAITING_FOR_START)
    (he : f.elbowAngle = some e) (hh : f.hipAngle = some h)
    (hsY : f.shoulderY = some sY) (hhY : f.hipY = some hY)
    (hdelta : 3/10 < |sY - hY|) :
    updatePushupState template m f now =
      { m with state := .WAITING_FOR_START, currentRep := [], topStreak := 0 } := by
  rcases f with ⟨t, eA, hA, hdY, sY0, hY0⟩
  dsimp only at he hh hsY hhY
  subst he; subst hh; subst hsY; subst hhY
  simp only [updatePushupState]
  rw [if_neg (not_le.mpr hdelta), if_pos hstate]

/-- A machine mid-repetition: state `AT_TOP` with a nonempty buffer. -/
def mAtTop : PushupMachine := ⟨.AT_TOP, [fTop], [], 3, none, []⟩

/-- Witness for claim C2: processing the vertical-posture frame from the
concrete `AT_TOP` machine resets it. -/
theorem pushup_posture_reset_witness :
    updatePushupState none mAtTop fVert 0 =
      { mAtTop with state := .WAITING_FOR_START, currentRep := [],
                    topStreak := 0 } :=
  pushup_posture_reset none mAtTop fVert 0 170 160 0 1 (by decide)
    rfl rfl rfl rfl (by norm_num)

/-- A frame with null angles but vertical positions far apart
(`|shoulderY - hipY| = 1 > 0.3`). -/
def fNullVert : FrameFeatures ℚ := ⟨0, none, none, none, some 0, some 1⟩

/-- Counterexample to claim C2 as stated: a frame whose vertical positions
satisfy `|shoulderY - hipY| > 0.3` but whose angles are null leaves an
`AT_TOP` machine completely unchanged — no reset to `WAITING_FOR_START`,
buffer kept — because the null-angle guard returns before the posture
gate. -/
theorem pushup_posture_reset_counterexample :
    fNullVert.shoulderY = some 0 ∧ fNullVert.hipY = some 1 ∧
    (3/10 : ℚ) < |(0 : ℚ) - 1| ∧
    mAtTop.state ≠ .WAITING_FOR_START ∧
    updatePushupState none mAtTop fNullVert 0 = mAtTop ∧
    mAtTop.currentRep ≠ [] := by
  exact ⟨rfl, rfl, by norm_num, by decide, rfl, by decide⟩

/-! ## Squat state machine

The geometry prefix of the source `updateSquatState` (landmark lookups,
visibility averaging over hips/knees/ankles, knee-angle computation through
`angleDegrees`) reduces the frame to two scalars: the average visibility and
the optional knee angle.  The machine below consumes those two scalars and
mirrors the source's transition logic verbatim (`SQUAT_KNEE_TOP_ANGLE =
165`, `SQUAT_KNEE_BOTTOM_ANGLE = 100`, `SQUAT_MIN_ANGLE_DELTA = 35`,
`SQUAT_MIN_VALID_FRAMES = 6`, 5° hysteresis, 3-frame start streak). -/

structure SquatMachine where
  state : SquatState
  currentRepAngles : List ℚ
  completedReps : List CompletedRep
  topStreak : ℕ
  events : List RepetitionEventDetail
deriving DecidableEq, Repr

/-- The component's initial squat-detection state. -/
def initSquat : SquatMachine := ⟨.WAITING_FOR_START, [], [], 0, []⟩

/-- One frame of the squat state machine (source `updateSquatState`, lines
past the landmark extraction).  An accepted cycle records a
`CompletedRep` with empty features and correctness 100 and dispatches a
`squatCompleted` event whose detail carries only `repCount` and
`timestamp` — no score field. -/
def updateSquatState (m : SquatMachine) (avgVis : ℚ) (kneeAngle? : Option ℚ)
    (now : ℕ) : SquatMachine :=
  if avgVis < 2/5 then
    if m.state = .WAITING_FOR_START then { m with topStreak := 0 } else m
  else
    match kneeAngle? with
    | none => m
    | some kneeAngle =>
      let atTop := 165 ≤ kneeAngle
      let atBottom := kneeAngle ≤ 100
      match m.state with
      | .WAITING_FOR_START =>
        if atTop then
          let streak := m.topStreak + 1
          if 3 ≤ streak then
            { m with state := .STANDING, topStreak := streak,
                     currentRepAngles := [kneeAngle] }
          else { m with topStreak := streak }
        else { m with topStreak := 0 }
      | .STANDING =>
        let buf := m.currentRepAngles ++ [kneeAngle]
        if ¬ atTop ∧ kneeAngle < 165 - 5 then
          { m with currentRepAngles := buf, state := .GOING_DOWN }
        else { m with currentRepAngles := buf }
      | .GOING_DOWN =>
        let buf := m.currentRepAngles ++ [kneeAngle]
        if atBottom then { m with currentRepAngles := buf, state := .AT_BOTTOM }
        else if atTop then
          { m with state := .STANDING, currentRepAngles := [kneeAngle] }
        else { m with currentRepAngles := buf }
      | .AT_BOTTOM =>
        let buf := m.currentRepAngles ++ [kneeAngle]
        if ¬ atBottom ∧ 100 + 5 < kneeAngle then
          { m with currentRepAngles := buf, state := .GOING_UP }
        else { m with currentRepAngles := buf }
      | .GOING_UP =>
        let angles := m.currentRepAngles ++ [kneeAngle]
        if atTop then
          if 6 ≤ angles.length then
            let minKnee := listMin angles
            let maxKnee := listMax angles
            let range := maxKnee - minKnee
            if minKnee ≤ 100 + 5 ∧ 35 ≤ range then
              let completed := m.completedReps ++ [⟨[], 100⟩]
              { m with state := .STANDING, currentRepAngles := [kneeAngle],
                       completedReps := completed,
                       events := m.events ++ [⟨none, completed.length, now⟩] }
            else { m with state := .STANDING, currentRepAngles := [kneeAngle] }
          else { m with state := .STANDING, currentRepAngles := [kneeAngle] }
        else { m with currentRepAngles := angles }

/-- The per-frame detection loop restricted to squat mode, over a stream of
(average visibility, knee angle, timestamp) triples. -/
def runSquat (m : SquatMachine) : List (ℚ × Option ℚ × ℕ) → SquatMachine
  | [] => m
  | (v, k, ts) :: rest => runSquat (updateSquatState m v k ts) rest

/-! ### Claim C7 -/

/-- Claim C7: a completed squat cycle (`GOING_UP` seeing a standing-range
knee angle again, under the visibility gate) is accepted exactly when the
buffered knee-angle sequence — including the closing frame — has length
≥ 6, range ≥ 35° and minimum ≤ 105°; an accepted squat appends exactly one
`CompletedRep` with correctness exactly 100, and in all cases the machine
returns to `STANDING`. -/
theorem squat_cycle_acceptance (m : SquatMachine) (avgVis k : ℚ) (now : ℕ)
    (hstate : m.state = .GOING_UP) (hvis : 2/5 ≤ avgVis) (htop : 165 ≤ k) :
    (updateSquatState m avgVis (some k) now).completedReps =
      (if 6 ≤ (m.currentRepAngles ++ [k]).length ∧
          35 ≤ listMax (m.currentRepAngles ++ [k]) -
                 listMin (m.currentRepAngles ++ [k]) ∧
          listMin (m.currentRepAngles ++ [k]) ≤ 105
       then m.completedReps ++ [⟨[], 100⟩] else m.completedReps) ∧
    (updateSquatState m avgVis (some k) now).state = .STANDING := by
  rcases m with ⟨st, cur, comp, streak, evs⟩
  dsimp only at hstate
  subst hstate
  simp only [updateSquatState, if_neg (not_lt.mpr hvis)]
  rw [if_pos htop]
  by_cases hlen : 6 ≤ (cur ++ [k]).length
  · by_cases hcond : listMin (cur ++ [k]) ≤ 100 + 5 ∧
        35 ≤ listMax (cur ++ [k]) - listMin (cur ++ [k])
    · have hC : 6 ≤ (cur ++ [k]).length ∧
          35 ≤ listMax (cur ++ [k]) - listMin (cur ++ [k]) ∧
          listMin (cur ++ [k]) ≤ 105 := ⟨hlen, hcond.2, by linarith [hcond.1]⟩
      rw [if_pos hlen, if_pos hcond, if_pos hC]
      exact ⟨rfl, rfl⟩
    · have hC : ¬ (6 ≤ (cur ++ [k]).length ∧
          35 ≤ listMax (cur ++ [k]) - listMin (cur ++ [k]) ∧
          listMin (cur ++ [k]) ≤ 105) :=
        fun hc => hcond ⟨by linarith [hc.2.2], hc.2.1⟩
      rw [if_pos hlen, if_neg hcond, if_neg hC]
      exact ⟨rfl, rfl⟩
  · have hC : ¬ (6 ≤ (cur ++ [k]).length ∧
        35 ≤ listMax (cur ++ [k]) - listMin (cur ++ [k]) ∧
        listMin (cur ++ [k]) ≤ 105) := fun hc => hlen hc.1
    rw [if_neg hlen, if_neg hC]
    exact ⟨rfl, rfl⟩

/-- A squat machine on the way up with five buffered knee angles. -/
def mSquatUp : SquatMachine := ⟨.GOING_UP, [170, 150, 120, 95, 130], [], 3, []⟩

/-- Witness for claim C7: closing the concrete cycle at knee angle 170°
records exactly one 100-correctness repetition. -/
theorem squat_cycle_acceptance_witness :
    (updateSquatState mSquatUp 1 (some 170) 5).completedReps = [⟨[], 100⟩] ∧
    (updateSquatState mSquatUp 1 (some 170) 5).state = .STANDING := by
  have h := squat_cycle_acceptance mSquatUp 1 170 5 rfl (by norm_num) (by norm_num)
  refine ⟨?_, h.2⟩
  rw [h.1, if_pos ?_]
  · rfl
  refine ⟨by simp [mSquatUp], ?_, ?_⟩ <;>
    norm_num [mSquatUp, listMin, listMax, min_def, max_def]

/-! ### Claims C9 and C10: machine invariants -/

/-- A feature frame with all four fields the state machine relies on
present: elbow angle, hip angle, shoulder height, hip height. -/
def fullFrame (f : FrameFeatures ℚ) : Bool :=
  f.elbowAngle.isSome && f.hipAngle.isSome && f.shoulderY.isSome && f.hipY.isSome

/-- Shape of a push-up step: either the log and events are untouched and the
buffer is kept, cleared, extended by the (fully-angled) current frame or
reseeded with it; or a valid repetition closes, appending exactly one scored
`CompletedRep` and exactly one event carrying that score and the new log
length. -/
lemma updatePushupState_shape (template : Option PushupTemplate)
    (m : PushupMachine) (f : FrameFeatures ℚ) (now : ℕ) :
    ((updatePushupState template m f now).completedReps = m.completedReps ∧
     (updatePushupState template m f now).events = m.events ∧
     ((updatePushupState template m f now).currentRep = m.currentRep ∨
      (updatePushupState template m f now).currentRep = [] ∨
      (fullFrame f = true ∧
        ((updatePushupState template m f now).currentRep = m.currentRep ++ [f] ∨
         (updatePushupState template m f now).currentRep = [f])))) ∨
    (fullFrame f = true ∧ repIsValid (m.currentRep ++ [f]) = true ∧
     (updatePushupState template m f now).completedReps =
       m.completedReps ++
         [⟨m.currentRep ++ [f], scoreRep template (m.currentRep ++ [f])⟩] ∧
     (updatePushupState template m f now).events =
       m.events ++ [⟨some (scoreRep template (m.currentRep ++ [f])),
                     m.completedReps.length + 1, now⟩] ∧
     (updatePushupState template m f now).currentRep = [f]) := by
  rcases m with ⟨st, cur, comp, streak, base, evs⟩
  rcases f with ⟨t, eA, hA, hdY, sY, hY⟩
  rcases eA with _ | e
  · left
    simp only [updatePushupState]
    split_ifs <;> exact ⟨rfl, rfl, Or.inl rfl⟩
  rcases hA with _ | h
  · left
    simp only [updatePushupState]
    split_ifs <;> exact ⟨rfl, rfl, Or.inl rfl⟩
  rcases sY with _ | sY
  · exact Or.inl ⟨rfl, rfl, Or.inl rfl⟩
  rcases hY with _ | hY
  · exact Or.inl ⟨rfl, rfl, Or.inl rfl⟩
  have hfull : fullFrame ⟨t, some e, some h, hdY, some sY, some hY⟩ = true := rfl
  by_cases hhor : |sY - hY| ≤ (3 : ℚ)/10
  · simp only [updatePushupState, if_pos hhor]
    cases st <;> dsimp only
    · -- WAITING_FOR_START
      left
      split_ifs
      · exact ⟨rfl, rfl, Or.inr (Or.inr ⟨hfull, Or.inr rfl⟩)⟩
      · exact ⟨rfl, rfl, Or.inl rfl⟩
      · exact ⟨rfl, rfl, Or.inl rfl⟩
    · -- AT_TOP
      left
      split_ifs <;> exact ⟨rfl, rfl, Or.inr (Or.inr ⟨hfull, Or.inl rfl⟩)⟩
    · -- GOING_DOWN
      left
      split_ifs
      · exact ⟨rfl, rfl, Or.inr (Or.inr ⟨hfull, Or.inl rfl⟩)⟩
      · exact ⟨rfl, rfl, Or.inr (Or.inr ⟨hfull, Or.inr rfl⟩)⟩
      · exact ⟨rfl, rfl, Or.inr (Or.inr ⟨hfull, Or.inl rfl⟩)⟩
    · -- AT_BOTTOM
      left
      split_ifs <;> exact ⟨rfl, rfl, Or.inr (Or.inr ⟨hfull, Or.inl rfl⟩)⟩
    · -- GOING_UP
      by_cases h1 : ((160 : ℚ) ≤ e ∧ (150 : ℚ) ≤ h)
      · rw [if_pos h1]
        by_cases h2 : repIsValid
            (cur ++ [⟨t, some e, some h, hdY, some sY, some hY⟩]) = true
        · rw [if_pos h2]
          right
          exact ⟨hfull, h2, rfl, by simp, rfl⟩
        · rw [if_neg h2]
          exact Or.inl ⟨rfl, rfl, Or.inr (Or.inr ⟨hfull, Or.inr rfl⟩)⟩
      · rw [if_neg h1]
        exact Or.inl ⟨rfl, rfl, Or.inr (Or.inr ⟨hfull, Or.inl rfl⟩)⟩
  · left
    simp only [updatePushupState, if_neg hhor]
    split_ifs
    · exact ⟨rfl, rfl, Or.inr (Or.inl rfl)⟩
    · exact ⟨rfl, rfl, Or.inl rfl⟩

/-- Shape of a squat step: either the log and events are untouched, or one
accepted repetition appends a 100-correctness `CompletedRep` and one
scoreless event carrying the new log length. -/
lemma updateSquatState_shape (m : SquatMachine) (avgVis : ℚ)
    (kneeAngle? : Option ℚ) (now : ℕ) :
    ((updateSquatState m avgVis kneeAngle? now).completedReps =
       m.completedReps ∧
     (updateSquatState m avgVis kneeAngle? now).events = m.events) ∨
    ((updateSquatState m avgVis kneeAngle? now).completedReps =
       m.completedReps ++ [⟨[], 100⟩] ∧
     (updateSquatState m avgVis kneeAngle? now).events =
       m.events ++ [⟨none, m.completedReps.length + 1, now⟩]) := by
  rcases m with ⟨st, cur, comp, streak, evs⟩
  by_cases hvis : avgVis < (2 : ℚ)/5
  · simp only [updateSquatState, if_pos hvis]
    split_ifs <;> exact Or.inl ⟨rfl, rfl⟩
  simp only [updateSquatState, if_neg hvis]
  rcases kneeAngle? with _ | k
  · exact Or.inl ⟨rfl, rfl⟩
  cases st <;> dsimp only
  · left; split_ifs <;> exact ⟨rfl, rfl⟩
  · left; split_ifs <;> exact ⟨rfl, rfl⟩
  · left; split_ifs <;> exact ⟨rfl, rfl⟩
  · left; split_ifs <;> exact ⟨rfl, rfl⟩
  · -- GOING_UP
    by_cases h1 : (165 : ℚ) ≤ k
    · rw [if_pos h1]
      by_cases h2 : 6 ≤ (cur ++ [k]).length
      · rw [if_pos h2]
        by_cases h3 : listMin (cur ++ [k]) ≤ 100 + 5 ∧
            35 ≤ listMax (cur ++ [k]) - listMin (cur ++ [k])
        · rw [if_pos h3]
          right
          exact ⟨rfl, by simp⟩
        · rw [if_neg h3]
          exact Or.inl ⟨rfl, rfl⟩
      · rw [if_neg h2]
        exact Or.inl ⟨rfl, rfl⟩
    · rw [if_neg h1]
      exact Or.inl ⟨rfl, rfl⟩

/-- Every event in the list carries the 1-based position as its
repetition count. -/
def countsOk (events : List RepetitionEventDetail) : Prop :=
  ∀ i (hi : i < events.length), (events[i]).repCount = i + 1

/-- Every event carries a numeric score within `[0, 100]`. -/
def scoresPresent (events : List RepetitionEventDetail) : Prop :=
  ∀ ev ∈ events, ∃ s, ev.score? = some s ∧ 0 ≤ s ∧ s ≤ 100

/-- Every event carries no score field. -/
def scoresAbsent (events : List RepetitionEventDetail) : Prop :=
  ∀ ev ∈ events, ev.score? = none

lemma countsOk_append (es : List RepetitionEventDetail)
    (x : RepetitionEventDetail) (h : countsOk es)
    (hx : x.repCount = es.length + 1) : countsOk (es ++ [x]) := by
  intro i hi
  rcases Nat.lt_or_ge i es.length with hlt | hge
  · rw [List.getElem_append_left hlt]
    exact h i hlt
  · have hieq : i = es.length := by
      simp only [List.length_append, List.length_singleton] at hi
      omega
    rw [List.getElem_concat_length es x i hieq, hx, hieq]

/-- Invariant tying the event stream to the completed-repetition log. -/
def pushupEventsOk (m : PushupMachine) : Prop :=
  m.events.length = m.completedReps.length ∧ countsOk m.events ∧
    scoresPresent m.events

lemma pushupEventsOk_step (template : Option PushupTemplate)
    (m : PushupMachine) (f : FrameFeatures ℚ) (now : ℕ)
    (h : pushupEventsOk m) :
    pushupEventsOk (updatePushupState template m f now) := by
  rcases updatePushupState_shape template m f now with
    ⟨hc, he, _⟩ | ⟨_, _, hc, he, _⟩
  · exact ⟨by rw [he, hc]; exact h.1, by rw [he]; exact h.2.1,
      by rw [he]; exact h.2.2⟩
  · refine ⟨?_, ?_, ?_⟩
    · rw [he, hc]; simp [h.1]
    · rw [he]
      exact countsOk_append _ _ h.2.1 (by simp [h.1])
    · rw [he]
      intro ev hev
      rcases List.mem_append.mp hev with hev | hev
      · exact h.2.2 ev hev
      · rw [List.mem_singleton.mp hev]
        exact ⟨scoreRep template (m.currentRep ++ [f]), rfl,
          scoreRep_bounds template (m.currentRep ++ [f])⟩

lemma runPushup_eventsOk (template : Option PushupTemplate) :
    ∀ (inputs : List (FrameFeatures ℚ × ℕ)) (m : PushupMachine),
      pushupEventsOk m → pushupEventsOk (runPushup template m inputs) := by
  intro inputs
  induction inputs with
  | nil => exact fun m h => h
  | cons p rest ih =>
    rcases p with ⟨f, ts⟩
    intro m h
    exact ih (updatePushupState template m f ts) (pushupEventsOk_step template m f ts h)

/-- Invariant tying the squat event stream to the log. -/
def squatEventsOk (q : SquatMachine) : Prop :=
  q.events.length = q.completedReps.length ∧ countsOk q.events ∧
    scoresAbsent q.events ∧ ∀ r ∈ q.completedReps, r.correctness = 100

lemma squatEventsOk_step (m : SquatMachine) (avgVis : ℚ)
    (kneeAngle? : Option ℚ) (now : ℕ) (h : squatEventsOk m) :
    squatEventsOk (updateSquatState m avgVis kneeAngle? now) := by
  rcases updateSquatState_shape m avgVis kneeAngle? now with ⟨hc, he⟩ | ⟨hc, he⟩
  · exact ⟨by rw [he, hc]; exact h.1, by rw [he]; exact h.2.1,
      by rw [he]; exact h.2.2.1, by rw [hc]; exact h.2.2.2⟩
  · refine ⟨?_, ?_, ?_, ?_⟩
    · rw [he, hc]; simp [h.1]
    · rw [he]
      exact countsOk_append _ _ h.2.1 (by simp [h.1])
    · rw [he]
      intro ev hev
      rcases List.mem_append.mp hev with hev | hev
      · exact h.2.2.1 ev hev
      · rw [List.mem_singleton.mp hev]
    · rw [hc]
      intro r hr
      rcases List.mem_append.mp hr with hr | hr
      · exact h.2.2.2 r hr
      · rw [List.mem_singleton.mp hr]

lemma runSquat_eventsOk :
    ∀ (inputs : List (ℚ × Option ℚ × ℕ)) (m : SquatMachine),
      squatEventsOk m → squatEventsOk (runSquat m inputs) := by
  intro inputs
  induction inputs with
  | nil => exact fun m h => h
  | cons p rest ih =>
    rcases p with ⟨v, k, ts⟩
    intro m h
    exact ih (updateSquatState m v k ts) (squatEventsOk_step m v k ts h)

/-- Claim C9 (amended): on any run of either machine from its initial
state, exactly one event is emitted per accepted repetition (the event list
and the session log always have equal length), each event's `repCount` is
the 1-based running count of accepted repetitions at emission time (hence an
integer ≥ 1), each event carries a timestamp, and each push-up event carries
a score within `[0, 100]` — but, contrary to the original claim, squat
events carry no score field at all (only `repCount` and `timestamp`; the
flat 100 correctness is recorded in the session log only). -/
theorem repetition_event_payload (template : Option PushupTemplate)
    (pIn : List (FrameFeatures ℚ × ℕ)) (sIn : List (ℚ × Option ℚ × ℕ)) :
    ((runPushup template initPushup pIn).events.length =
       (runPushup template initPushup pIn).completedReps.length ∧
     countsOk (runPushup template initPushup pIn).events ∧
     scoresPresent (runPushup template initPushup pIn).events) ∧
    ((runSquat initSquat sIn).events.length =
       (runSquat initSquat sIn).completedReps.length ∧
     countsOk (runSquat initSquat sIn).events ∧
     scoresAbsent (runSquat initSquat sIn).events ∧
     ∀ r ∈ (runSquat initSquat sIn).completedReps, r.correctness = 100) :=
  ⟨runPushup_eventsOk template pIn initPushup
     ⟨rfl, fun i hi => absurd hi (by simp [initPushup]), fun ev hev =>
       absurd hev (by simp [initPushup])⟩,
   runSquat_eventsOk sIn initSquat
     ⟨rfl, fun i hi => absurd hi (by simp [initSquat]), fun ev hev =>
       absurd hev (by simp [initSquat]), fun r hr =>
       absurd hr (by simp [initSquat])⟩⟩

/-- Frames of a complete push-up repetition after the start streak:
elbow 170° → 150° → 120° → 88° → 130° → 170°. -/
def f150 : FrameFeatures ℚ := ⟨3, some 150, some 160, none, some (1/2), some (1/2)⟩

def f120 : FrameFeatures ℚ := ⟨4, some 120, some 155, none, some (1/2), some (1/2)⟩

def f88 : FrameFeatures ℚ := ⟨5, some 88, some 150, none, some (1/2), some (1/2)⟩

def f130 : FrameFeatures ℚ := ⟨6, some 130, some 155, none, some (1/2), some (1/2)⟩

/-- A push-up input stream completing exactly one valid repetition. -/
def pIn9 : List (FrameFeatures ℚ × ℕ) :=
  [(fTop, 0), (fTop, 1), (fTop, 2), (f150, 3), (f120, 4), (f88, 5),
   (f130, 6), (fTop, 7)]

/-- A squat input stream completing exactly one valid repetition:
knee 170°, 170°, 170° (start streak), 150°, 120°, 95°, 130°, 170°. -/
def sIn9 : List (ℚ × Option ℚ × ℕ) :=
  [(1, some 170, 0), (1, some 170, 1), (1, some 170, 2), (1, some 150, 3),
   (1, some 120, 4), (1, some 95, 5), (1, some 130, 6), (1, some 170, 7)]

/-- Witness for claim C9 at concrete one-repetition runs of both machines. -/
theorem repetition_event_payload_witness :
    (runPushup none initPushup pIn9).events.length =
      (runPushup none initPushup pIn9).completedReps.length ∧
    ((runPushup none initPushup pIn9).events.getD 0 ⟨none, 0, 0⟩).repCount = 1 ∧
    ((runPushup none initPushup pIn9).events.getD 0 ⟨none, 0, 0⟩).score? = some 85 ∧
    (runSquat initSquat sIn9).events.length =
      (runSquat initSquat sIn9).completedReps.length ∧
    ((runSquat initSquat sIn9).events.getD 0 ⟨none, 0, 0⟩).repCount = 1 ∧
    ((runSquat initSquat sIn9).events.getD 0 ⟨none, 0, 0⟩).score? = none := by
  have h := repetition_event_payload none pIn9 sIn9
  have hpev : (runPushup none initPushup pIn9).events = [⟨some 85, 1, 7⟩] := by
    norm_num [runPushup, updatePushupState, initPushup, pIn9, fTop, f150, f120,
      f88, f130, repIsValid, scoreRep, listMin, listMax, min_def, max_def,
      List.filterMap_cons]
  have hsev : (runSquat initSquat sIn9).events = [⟨none, 1, 7⟩] := by
    norm_num [runSquat, updateSquatState, initSquat, sIn9, listMin, listMax,
      min_def, max_def]
  exact ⟨h.1.1, by rw [hpev]; rfl, by rw [hpev]; rfl, h.2.1,
    by rw [hsev]; rfl, by rw [hsev]; rfl⟩

/-- Counterexample to claim C9 as stated: a complete valid squat run emits
exactly one repetition-completed event, and its payload carries no score
field at all — only the repetition count and the timestamp — although the
logged repetition has correctness 100. -/
theorem repetition_event_payload_counterexample :
    (runSquat initSquat sIn9).events =
      [{ score? := none, repCount := 1, timestamp := 7 }] ∧
    (runSquat initSquat sIn9).completedReps =
      [{ features := [], correctness := 100 }] := by
  constructor <;>
    norm_num [runSquat, updateSquatState, initSquat, sIn9, listMin, listMax,
      min_def, max_def]

/-! ### Claim C10 -/

/-- Invariant: every frame in the in-progress buffer and in every logged
repetition has all four machine-relevant fields present. -/
def buffersFull (m : PushupMachine) : Prop :=
  (∀ g ∈ m.currentRep, fullFrame g = true) ∧
  (∀ r ∈ m.completedReps, ∀ g ∈ r.features, fullFrame g = true)

lemma buffersFull_step (template : Option PushupTemplate) (m : PushupMachine)
    (f : FrameFeatures ℚ) (now : ℕ) (h : buffersFull m) :
    buffersFull (updatePushupState template m f now) := by
  rcases updatePushupState_shape template m f now with
    ⟨hc, _, hcur⟩ | ⟨hf, _, hc, _, hcur⟩
  · refine ⟨?_, by rw [hc]; exact h.2⟩
    rcases hcur with h1 | h1 | ⟨hf, h1 | h1⟩ <;> rw [h1]
    · exact h.1
    · simp
    · intro g hg
      rcases List.mem_append.mp hg with hg | hg
      · exact h.1 g hg
      · rw [List.mem_singleton.mp hg]; exact hf
    · intro g hg
      rw [List.mem_singleton.mp hg]; exact hf
  · constructor
    · rw [hcur]
      intro g hg
      rw [List.mem_singleton.mp hg]; exact hf
    · rw [hc]
      intro r hr
      rcases List.mem_append.mp hr with hr | hr
      · exact h.2 r hr
      · rw [List.mem_singleton.mp hr]
        intro g hg
        rcases List.mem_append.mp hg with hg | hg
        · exact h.1 g hg
        · rw [List.mem_singleton.mp hg]; exact hf

lemma runPushup_buffersFull (template : Option PushupTemplate) :
    ∀ (inputs : List (FrameFeatures ℚ × ℕ)) (m : PushupMachine),
      buffersFull m → buffersFull (runPushup template m inputs) := by
  intro inputs
  induction inputs with
  | nil => exact fun m h => h
  | cons p rest ih =>
    rcases p with ⟨f, ts⟩
    intro m h
    exact ih (updatePushupState template m f ts) (buffersFull_step template m f ts h)

/-- Claim C10: on any run of the push-up machine from its initial state,
every frame stored in the in-progress repetition buffer — and every frame
of every logged repetition, which is what the validator and scorer were
invoked on — has non-null `elbowAngle`, `hipAngle`, `shoulderY` and `hipY`:
the state machine returns before any buffer write when one of these is
null. -/
theorem pushup_buffer_frames_full (template : Option PushupTemplate)
    (inputs : List (FrameFeatures ℚ × ℕ)) :
    (∀ g ∈ (runPushup template initPushup inputs).currentRep,
      fullFrame g = true) ∧
    (∀ r ∈ (runPushup template initPushup inputs).completedReps,
      ∀ g ∈ r.features, fullFrame g = true) :=
  runPushup_buffersFull template inputs initPushup
    ⟨fun g hg => absurd hg (by simp [initPushup]),
     fun r hr => absurd hr (by simp [initPushup])⟩

/-- Witness for claim C10: after three at-top frames the buffer holds the
seeded frame, which is fully angled — established through the invariant. -/
theorem pushup_buffer_frames_full_witness :
    fTop ∈ (runPushup none initPushup
      [(fTop, 0), (fTop, 1), (fTop, 2)]).currentRep ∧
    fullFrame fTop = true := by
  have hmem : fTop ∈ (runPushup none initPushup
      [(fTop, 0), (fTop, 1), (fTop, 2)]).currentRep := by
    norm_num [runPushup, updatePushupState, initPushup, fTop]
  exact ⟨hmem,
    (pushup_buffer_frames_full none [(fTop, 0), (fTop, 1), (fTop, 2)]).1
      fTop hmem⟩

/-! ## Hand-height axis tracker -/

/-- The designated hand of the axis tracker. -/
inductive Hand
  | LEFT
  | RIGHT
deriving DecidableEq, Repr

/-- MediaPipe wrist landmark index for a hand (`L_WRIST = 15`,
`R_WRIST = 16`). -/
def wristIdx : Hand → ℕ
  | .LEFT => 15
  | .RIGHT => 16

/-- Payload of a `handYUpdate` browser event. -/
structure HandYEvent where
  hand : Hand
  y : ℚ
  timestamp : ℕ
deriving DecidableEq, Repr

/-- Per-frame axis tracker (source `trackHandY`): `none` models "no event
dispatched" (missing wrist or visibility below `MIN_VIS_BODY = 0.4`);
otherwise the raw vertical position is clamped to `[0, 1]` and inverted so
that "up" maps to larger values. -/
def trackHandY (landmarks : List (Landmark ℚ)) (hand : Hand) (now : ℕ) :
    Option HandYEvent :=
  match landmarks.get? (wristIdx hand) with
  | none => none
  | some wrist =>
    if wrist.visibility < 2/5 then none
    else
      let yClamped := max 0 (min 1 wrist.y)
      let yNorm := 1 - yClamped
      some ⟨hand, yNorm, now⟩

/-- Claim C8: an axis-update event is emitted only when the designated
wrist is present with visibility ≥ 0.4; the emitted value is exactly
`1 - clamp(wristY, 0, 1)`, always within `[0, 1]`, and monotonically
non-increasing in the raw wrist y-coordinate. -/
theorem trackHandY_spec :
    (∀ (landmarks : List (Landmark ℚ)) (hand : Hand) (now : ℕ)
        (ev : HandYEvent), trackHandY landmarks hand now = some ev →
      ∃ w, landmarks.get? (wristIdx hand) = some w ∧ 2/5 ≤ w.visibility ∧
        ev.y = 1 - max 0 (min 1 w.y) ∧ 0 ≤ ev.y ∧ ev.y ≤ 1 ∧
        ev.hand = hand ∧ ev.timestamp = now) ∧
    (∀ (landmarks : List (Landmark ℚ)) (hand : Hand) (now : ℕ)
        (w₁ w₂ : Landmark ℚ) (ev₁ ev₂ : HandYEvent), w₁.y ≤ w₂.y →
      trackHandY (landmarks.set (wristIdx hand) w₁) hand now = some ev₁ →
      trackHandY (landmarks.set (wristIdx hand) w₂) hand now = some ev₂ →
      ev₂.y ≤ ev₁.y) := by
  have hemit : ∀ (landmarks : List (Landmark ℚ)) (hand : Hand) (now : ℕ)
      (ev : HandYEvent), trackHandY landmarks hand now = some ev →
      ∃ w, landmarks.get? (wristIdx hand) = some w ∧ 2/5 ≤ w.visibility ∧
        ev.y = 1 - max 0 (min 1 w.y) ∧ 0 ≤ ev.y ∧ ev.y ≤ 1 ∧
        ev.hand = hand ∧ ev.timestamp = now := by
    intro landmarks hand now ev hev
    unfold trackHandY at hev
    rcases hw : landmarks.get? (wristIdx hand) with _ | w
    · rw [hw] at hev; exact absurd hev (by simp)
    rw [hw] at hev
    dsimp only at hev
    split_ifs at hev with hvis
    have hclamp0 : 0 ≤ max 0 (min 1 w.y) := le_max_left _ _
    have hclamp1 : max 0 (min 1 w.y) ≤ 1 :=
      max_le (by norm_num) (min_le_left _ _)
    refine ⟨w, rfl, not_lt.mp hvis, ?_, ?_, ?_, ?_, ?_⟩
    · rw [← Option.some_inj.mp hev]
    · rw [← Option.some_inj.mp hev]
      dsimp only
      linarith
    · rw [← Option.some_inj.mp hev]
      dsimp only
      linarith
    · rw [← Option.some_inj.mp hev]
    · rw [← Option.some_inj.mp hev]
  refine ⟨hemit, ?_⟩
  intro landmarks hand now w₁ w₂ ev₁ ev₂ hy h1 h2
  obtain ⟨u₁, hu₁, _, hval₁, _⟩ := hemit _ _ _ _ h1
  obtain ⟨u₂, hu₂, _, hval₂, _⟩ := hemit _ _ _ _ h2
  rw [List.get?_eq_getElem?] at hu₁ hu₂
  by_cases hidx : wristIdx hand < landmarks.length
  · have he₁ : u₁ = w₁ := by
      rw [List.getElem?_set_self (by simpa using hidx)] at hu₁
      exact (Option.some_inj.mp hu₁).symm
    have he₂ : u₂ = w₂ := by
      rw [List.getElem?_set_self (by simpa using hidx)] at hu₂
      exact (Option.some_inj.mp hu₂).symm
    rw [he₁] at hval₁
    rw [he₂] at hval₂
    rw [hval₁, hval₂]
    have hc : max 0 (min 1 w₁.y) ≤ max 0 (min 1 w₂.y) :=
      max_le_max le_rfl (min_le_min le_rfl hy)
    linarith
  · exfalso
    rw [List.set_eq_of_length_le (by omega),
        List.getElem?_eq_none (by omega)] at hu₁
    exact Option.noConfusion hu₁

/-- Seventeen landmarks all at `y = 3/4` with full visibility. -/
def lms8 : List (Landmark ℚ) := List.replicate 17 ⟨0, 3/4, 0, 1⟩

/-- A higher-visibility wrist raised to `y = 1/4`. -/
def wristHigh : Landmark ℚ := ⟨0, 1/4, 0, 1⟩

/-- Witness for claim C8: at a concrete frame the tracker emits `1/4`
(wrist at `y = 3/4`), the bounds hold, and raising the wrist to `y = 1/4`
raises the emitted value to `3/4`. -/
theorem trackHandY_spec_witness :
    trackHandY lms8 .RIGHT 5 = some ⟨.RIGHT, 1/4, 5⟩ ∧
    (0 ≤ (1/4 : ℚ) ∧ (1/4 : ℚ) ≤ 1) ∧
    trackHandY (lms8.set 16 wristHigh) .RIGHT 5 = some ⟨.RIGHT, 3/4, 5⟩ ∧
    ((⟨.RIGHT, 1/4, 5⟩ : HandYEvent).y ≤ (⟨.RIGHT, 3/4, 5⟩ : HandYEvent).y) := by
  have h1 : trackHandY lms8 .RIGHT 5 = some ⟨.RIGHT, 1/4, 5⟩ := by
    norm_num [trackHandY, lms8, wristIdx, List.replicate, min_def, max_def]
  have h2 : trackHandY (lms8.set 16 wristHigh) .RIGHT 5 =
      some ⟨.RIGHT, 3/4, 5⟩ := by
    norm_num [trackHandY, lms8, wristHigh, wristIdx, List.replicate,
      List.set, min_def, max_def]
  have hmono := trackHandY_spec.2 lms8 .RIGHT 5 wristHigh
    ⟨0, 3/4, 0, 1⟩ ⟨.RIGHT, 3/4, 5⟩ ⟨.RIGHT, 1/4, 5⟩ (by norm_num [wristHigh])
    (by rw [show wristIdx .RIGHT = 16 from rfl]; exact h2)
    (by rw [show wristIdx .RIGHT = 16 from rfl,
            show lms8.set 16 ⟨0, 3/4, 0, 1⟩ = lms8 from by
              norm_num [lms8, List.replicate, List.set]]
        exact h1)
  exact ⟨h1, ⟨by norm_num, by norm_num⟩, h2, hmono⟩

/-! ## Landmark geometry layer

The source computes `Math.hypot` and `Math.acos`, so this layer is embedded
over `ℝ` and is noncomputable; the claims about it are settled through real
analysis rather than evaluation. -/

noncomputable section

/-- Three-point angle at the middle point in degrees (source
`angleDegrees`): null on a zero-length vector, otherwise the arc-cosine of
the cosine clamped to `[-1, 1]`, scaled by `180 / π`. -/
def angleDegrees (a b c : Landmark ℝ) : Option ℝ :=
  let v1x := a.x - b.x
  let v1y := a.y - b.y
  let v2x := c.x - b.x
  let v2y := c.y - b.y
  let dot := v1x * v2x + v1y * v2y
  let mag1 := Real.sqrt (v1x^2 + v1y^2)
  let mag2 := Real.sqrt (v2x^2 + v2y^2)
  if mag1 = 0 ∨ mag2 = 0 then none
  else
    let cos0 := dot / (mag1 * mag2)
    let cos1 := max (-1) (min 1 cos0)
    some (Real.arccos cos1 * 180 / Real.pi)

/-- Left/right averaging with null tolerance (source `avg`): null only when
both sides are null, the single present side otherwise, else the mean. -/
def avg (a b : Option ℝ) : Option ℝ :=
  match a, b with
  | none, none => none
  | none, some y => some y
  | some x, none => some x
  | some x, some y => some ((x + y) / 2)

/-- The push-up key-joint subset in source order: left and right shoulders,
elbows, wrists, hips and ankles (`keyJoints` in `extractFrameFeatures`). -/
def pushupKeyJoints (landmarks : List (Landmark ℝ)) :
    List (Option (Landmark ℝ)) :=
  [landmarks.get? 11, landmarks.get? 13, landmarks.get? 15,
   landmarks.get? 12, landmarks.get? 14, landmarks.get? 16,
   landmarks.get? 23, landmarks.get? 27, landmarks.get? 24, landmarks.get? 28]

/-- Visibility sum over the present joints of the subset. -/
def optVisSum (joints : List (Option (Landmark ℝ))) : ℝ :=
  joints.foldl
    (fun s j => match j with | some jj => s + jj.visibility | none => s) 0

/-- Count of present joints in the subset. -/
def optVisCount (joints : List (Option (Landmark ℝ))) : ℕ :=
  joints.foldl (fun n j => match j with | some _ => n + 1 | none => n) 0

/-- Mean visibility over the present key joints; 0 when none is present
(source `avgVis`). -/
def pushupAvgVis (landmarks : List (Landmark ℝ)) : ℝ :=
  let joints := pushupKeyJoints landmarks
  if 0 < optVisCount joints then optVisSum joints / (optVisCount joints : ℝ)
  else 0

/-- Three-point angle on optional joints.  In the source a missing joint
reaching this point would fault on `undefined.x`; with MediaPipe's fixed
33-landmark output every joint is present, and no claim exercises the
missing-joint case, so it is modelled as null. -/
def angle3? (a b c : Option (Landmark ℝ)) : Option ℝ :=
  match a, b, c with
  | some la, some lb, some lc => angleDegrees la lb lc
  | _, _, _ => none

/-- Feature extractor (source `extractFrameFeatures`): positions are always
populated from whichever joints are present; angles are computed only when
the mean key-joint visibility reaches `MIN_VIS_BODY = 0.4`. -/
def extractFrameFeatures (landmarks : List (Landmark ℝ)) (t : ℝ) :
    FrameFeatures ℝ :=
  let lSh := landmarks.get? 11
  let lEl := landmarks.get? 13
  let lWr := landmarks.get? 15
  let rSh := landmarks.get? 12
  let rEl := landmarks.get? 14
  let rWr := landmarks.get? 16
  let lHip := landmarks.get? 23
  let lAnk := landmarks.get? 27
  let rHip := landmarks.get? 24
  let rAnk := landmarks.get? 28
  let nose := landmarks.get? 0
  let shoulderY := avg (lSh.map (·.y)) (rSh.map (·.y))
  let hipY := avg (lHip.map (·.y)) (rHip.map (·.y))
  let headY := nose.map (·.y)
  if 2/5 ≤ pushupAvgVis landmarks then
    let elbowAngle := avg (angle3? lSh lEl lWr) (angle3? rSh rEl rWr)
    let hipAngle := avg (angle3? lSh lHip lAnk) (angle3? rSh rHip rAnk)
    ⟨t, elbowAngle, hipAngle, headY, shoulderY, hipY⟩
  else
    ⟨t, none, none, headY, shoulderY, hipY⟩

/-- `arccos x * 180 / π` always lies within `[0, 180]`. -/
lemma arccos_deg_bounds (x : ℝ) :
    0 ≤ Real.arccos x * 180 / Real.pi ∧ Real.arccos x * 180 / Real.pi ≤ 180 := by
  constructor
  · exact div_nonneg (mul_nonneg (Real.arccos_nonneg x) (by norm_num))
      Real.pi_pos.le
  · rw [div_le_iff Real.pi_pos]
    nlinarith [Real.arccos_le_pi x]

/-- A planar magnitude vanishes exactly on the zero vector. -/
lemma sqrt_sq_add_sq_eq_zero_iff (vx vy : ℝ) :
    Real.sqrt (vx^2 + vy^2) = 0 ↔ (vx = 0 ∧ vy = 0) := by
  constructor
  · intro h0
    have hle : vx^2 + vy^2 ≤ 0 := Real.sqrt_eq_zero'.mp h0
    constructor <;> nlinarith [sq_nonneg vx, sq_nonneg vy]
  · rintro ⟨hx, hy⟩
    rw [hx, hy]
    norm_num

/-- Claim C6: the three-point angle computation returns null — never `NaN`
and never a fault — exactly when one of the two vectors at the middle point
has zero length, and otherwise returns an angle within `[0, 180]` because
the cosine is clamped to `[-1, 1]` before the arc-cosine. -/
theorem angleDegrees_total (a b c : Landmark ℝ) :
    (((a.x - b.x = 0 ∧ a.y - b.y = 0) ∨ (c.x - b.x = 0 ∧ c.y - b.y = 0)) →
      angleDegrees a b c = none) ∧
    (¬ ((a.x - b.x = 0 ∧ a.y - b.y = 0) ∨ (c.x - b.x = 0 ∧ c.y - b.y = 0)) →
      ∃ θ, angleDegrees a b c = some θ ∧ 0 ≤ θ ∧ θ ≤ 180) := by
  constructor
  · intro hz
    simp only [angleDegrees]
    rcases hz with ⟨hx, hy⟩ | ⟨hx, hy⟩
    · rw [if_pos (Or.inl ((sqrt_sq_add_sq_eq_zero_iff _ _).mpr ⟨hx, hy⟩))]
    · rw [if_pos (Or.inr ((sqrt_sq_add_sq_eq_zero_iff _ _).mpr ⟨hx, hy⟩))]
  · intro hnz
    simp only [angleDegrees]
    rw [if_neg ?hcond]
    case hcond =>
      rintro (h0 | h0)
      · exact hnz (Or.inl ((sqrt_sq_add_sq_eq_zero_iff _ _).mp h0))
      · exact hnz (Or.inr ((sqrt_sq_add_sq_eq_zero_iff _ _).mp h0))
    exact ⟨_, rfl, (arccos_deg_bounds _).1, (arccos_deg_bounds _).2⟩

/-- Witness for claim C6: a degenerate triple (`b = c`) yields null; a
right-angle triple yields an angle within `[0, 180]`. -/
theorem angleDegrees_total_witness :
    angleDegrees ⟨1, 0, 0, 1⟩ ⟨0, 0, 0, 1⟩ ⟨0, 0, 0, 1⟩ = none ∧
    ∃ θ, angleDegrees ⟨1, 0, 0, 1⟩ ⟨0, 0, 0, 1⟩ ⟨0, 1, 0, 1⟩ = some θ ∧
      0 ≤ θ ∧ θ ≤ 180 := by
  constructor
  · exact (angleDegrees_total ⟨1, 0, 0, 1⟩ ⟨0, 0, 0, 1⟩ ⟨0, 0, 0, 1⟩).1
      (Or.inr (by norm_num))
  · exact (angleDegrees_total ⟨1, 0, 0, 1⟩ ⟨0, 0, 0, 1⟩ ⟨0, 1, 0, 1⟩).2
      (by norm_num)

/-- Claim C5: whenever the mean key-joint visibility is strictly below 0.4,
the extractor returns null elbow and hip angles, while `headY`, `shoulderY`
and `hipY` are still populated from whichever individual joints are
present (nose; left/right shoulders; left/right hips). -/
theorem extract_lowVis_null_angles (landmarks : List (Landmark ℝ)) (t : ℝ)
    (h : pushupAvgVis landmarks < 2/5) :
    (extractFrameFeatures landmarks t).elbowAngle = none ∧
    (extractFrameFeatures landmarks t).hipAngle = none ∧
    (extractFrameFeatures landmarks t).headY =
      (landmarks.get? 0).map (·.y) ∧
    (extractFrameFeatures landmarks t).shoulderY =
      avg ((landmarks.get? 11).map (·.y)) ((landmarks.get? 12).map (·.y)) ∧
    (extractFrameFeatures landmarks t).hipY =
      avg ((landmarks.get? 23).map (·.y)) ((landmarks.get? 24).map (·.y)) := by
  simp only [extractFrameFeatures]
  rw [if_neg (not_le.mpr h)]
  exact ⟨rfl, rfl, rfl, rfl, rfl⟩

/-- A single-landmark frame: only the nose is present, with visibility 0. -/
def lm0 : List (Landmark ℝ) := [⟨0, 1/2, 0, 0⟩]

/-- Witness for claim C5: on the one-landmark frame the mean key-joint
visibility is 0, the angles come out null, and `headY` is still populated
from the nose. -/
theorem extract_lowVis_null_angles_witness :
    pushupAvgVis lm0 < 2/5 ∧
    (extractFrameFeatures lm0 0).elbowAngle = none ∧
    (extractFrameFeatures lm0 0).hipAngle = none ∧
    (extractFrameFeatures lm0 0).headY = some (1/2) := by
  have hv : pushupAvgVis lm0 < 2/5 := by
    rw [show pushupAvgVis lm0 = 0 from rfl]
    norm_num
  have h := extract_lowVis_null_angles lm0 0 hv
  refine ⟨hv, h.1, h.2.1, ?_⟩
  rw [h.2.2.1]
  rfl

end

end Workout
